import Mathlib

/-!
Shallow embedding of the token-bucket rate limiter
(`deepseek-r1/rate-limiter/run-009` class `TokenBucket` and
`deepseek-r1/rate-limiter/run-010` class `TokenBucketRateLimiter`) and of the
URL shortener (`URLShortener` in `url-shortener.ts`), together with proofs of
the specification's testable properties.

Modelling conventions:
* JavaScript numbers are modelled as exact rationals (`ℚ`); the code performs
  only field arithmetic, `Math.min` and `Math.ceil` on them.
* `Date.now()` is an external input and is passed to each operation as an
  explicit `now : ℚ` (milliseconds).
* A thrown `Error` is modelled as `Except.error`; the JavaScript `Map` is
  modelled as an insertion-ordered association list with `Map.get`,
  `Map.set` and `Map.delete` counterparts `mapGet`, `mapSet`, `mapDelete`.
* Each `tryConsume` / `check` call body runs to completion on the JavaScript
  event loop (the code contains no `await` between its refill, decision and
  commit), so a set of concurrent calls is modelled as a sequence of atomic
  operations in an arbitrary order.
-/

attribute [local semireducible] Rat.add Rat.mul Rat.sub Rat.inv

namespace RateLimiter

/-- JavaScript `String.prototype.trim` (an external runtime primitive),
modelled on the character list so that it evaluates inside the kernel. -/
def jsTrim (s : String) : String :=
  String.mk (((s.data.dropWhile Char.isWhitespace).reverse.dropWhile Char.isWhitespace).reverse)

/-- The distinct `throw new Error(...)` sites of the two rate-limiter classes. -/
inductive RLError where
  | capacityNotPositive
  | refillRateNotPositive
  | negativeInitialTokens
  | initialTokensExceedCapacity
  | lastRefillInFuture
  | nonPositiveConsume
  | consumeExceedsCapacity
  | nonPositiveAdd
  | emptyBucketKey
  | unknownBucket
deriving DecidableEq, Repr

/-- Embedding of `TokenBucketConfig` of run-009. -/
structure TokenBucketConfig where
  capacity : ℚ
  refillRate : ℚ
  initialTokens : Option ℚ
  lastRefillTime : Option ℚ
deriving DecidableEq, Repr

/-- The mutable fields of run-009's `TokenBucket` class. -/
structure TokenBucket where
  tokens : ℚ
  lastRefillTime : ℚ
  capacity : ℚ
  refillRate : ℚ
deriving DecidableEq, Repr

/-- Embedding of `RateLimitResult` of run-009. -/
structure RateLimitResult where
  allowed : Bool
  remainingTokens : ℚ
  retryAfter : Option ℤ
  limit : ℚ
  resetTime : ℚ
deriving DecidableEq, Repr

/-- Embedding of `TokenBucket.validateConfig` of run-009 (`now` stands for `Date.now()`). -/
def validateConfig (config : TokenBucketConfig) (now : ℚ) : Except RLError Unit :=
  if config.capacity ≤ 0 then .error .capacityNotPositive
  else if config.refillRate ≤ 0 then .error .refillRateNotPositive
  else match config.initialTokens with
    | some t =>
      if t < 0 then .error .negativeInitialTokens
      else if t > config.capacity then .error .initialTokensExceedCapacity
      else match config.lastRefillTime with
        | some l => if l > now then .error .lastRefillInFuture else .ok ()
        | none => .ok ()
    | none => match config.lastRefillTime with
        | some l => if l > now then .error .lastRefillInFuture else .ok ()
        | none => .ok ()

/-- The run-009 `TokenBucket` constructor: validate, then take `initialTokens`
with the nullish default `capacity` and `lastRefillTime` with default `now`. -/
def mkTokenBucket (config : TokenBucketConfig) (now : ℚ) : Except RLError TokenBucket :=
  (validateConfig config now).map fun _ =>
    { tokens := config.initialTokens.getD config.capacity
      lastRefillTime := config.lastRefillTime.getD now
      capacity := config.capacity
      refillRate := config.refillRate }

/-- Embedding of `TokenBucket.refill` of run-009: returns unchanged when no time has
elapsed (or the clock ran backwards), otherwise adds
`elapsedMs / 1000 * refillRate` tokens clamped at `capacity`. -/
def TokenBucket.refill (b : TokenBucket) (now : ℚ) : TokenBucket :=
  let timeElapsedMs := now - b.lastRefillTime
  if timeElapsedMs ≤ 0 then b
  else
    { b with
      tokens := min b.capacity (b.tokens + timeElapsedMs / 1000 * b.refillRate)
      lastRefillTime := now }

/-- Embedding of `TokenBucket.tryConsume` of run-009; the returned pair is
(result, bucket state after the call). -/
def TokenBucket.tryConsume (b : TokenBucket) (tokensToConsume : ℚ) (now : ℚ) :
    Except RLError (RateLimitResult × TokenBucket) :=
  if tokensToConsume ≤ 0 then .error .nonPositiveConsume
  else if tokensToConsume > b.capacity then .error .consumeExceedsCapacity
  else
    let b1 := b.refill now
    if b1.tokens ≥ tokensToConsume then
      let b2 := { b1 with tokens := b1.tokens - tokensToConsume }
      .ok ({ allowed := true
             remainingTokens := b2.tokens
             retryAfter := none
             limit := b1.capacity
             resetTime := b1.lastRefillTime + 1000 / b1.refillRate }, b2)
    else
      let tokensNeeded := tokensToConsume - b1.tokens
      let timeToWaitMs := tokensNeeded / b1.refillRate * 1000
      .ok ({ allowed := false
             remainingTokens := b1.tokens
             retryAfter := some ⌈timeToWaitMs / 1000⌉
             limit := b1.capacity
             resetTime := b1.lastRefillTime + timeToWaitMs }, b1)

/-- Embedding of `TokenBucket.addTokens` of run-009. -/
def TokenBucket.addTokens (b : TokenBucket) (tokensToAdd : ℚ) : Except RLError TokenBucket :=
  if tokensToAdd ≤ 0 then .error .nonPositiveAdd
  else .ok { b with tokens := min b.capacity (b.tokens + tokensToAdd) }

/-- One call against a run-009 bucket. -/
inductive TBOp where
  | tryConsume (n : ℚ) (now : ℚ)
  | addTokens (n : ℚ)
deriving DecidableEq, Repr

/-- The bucket state after one call; a thrown error leaves the state as it was
(both methods validate before mutating). -/
def TokenBucket.applyOp (b : TokenBucket) : TBOp → TokenBucket
  | .tryConsume n now =>
    match b.tryConsume n now with
    | .ok (_, b2) => b2
    | .error _ => b
  | .addTokens n =>
    match b.addTokens n with
    | .ok b2 => b2
    | .error _ => b

/-- The bucket state after a finite sequence of calls. -/
def TokenBucket.applyOps (b : TokenBucket) (ops : List TBOp) : TokenBucket :=
  ops.foldl TokenBucket.applyOp b

/-- The capacity invariant for a run-009 bucket. -/
def TokenBucket.Valid (b : TokenBucket) : Prop :=
  0 ≤ b.tokens ∧ b.tokens ≤ b.capacity ∧ 0 < b.capacity ∧ 0 < b.refillRate

instance (b : TokenBucket) : Decidable b.Valid := by
  unfold TokenBucket.Valid; infer_instance

/-! ### The run-010 registry (`TokenBucketRateLimiter`) -/

/-- Association-list counterpart of JavaScript `Map.get` (keys are unique in
a JavaScript `Map`, so the first match is the only match). -/
def mapGet {α : Type} : List (String × α) → String → Option α
  | [], _ => none
  | a :: as, k => if a.1 == k then some a.2 else mapGet as k

/-- Association-list counterpart of JavaScript `Map.set`: replace in place,
or append when the key is new. -/
def mapSet {α : Type} : List (String × α) → String → α → List (String × α)
  | [], k, v => [(k, v)]
  | a :: as, k, v => if a.1 == k then (k, v) :: as else a :: mapSet as k v

/-- Association-list counterpart of JavaScript `Map.delete` (the callers in
this codebase ignore its Boolean return value). -/
def mapDelete {α : Type} : List (String × α) → String → List (String × α)
  | [], _ => []
  | a :: as, k => if a.1 == k then as else a :: mapDelete as k

/-- Embedding of `TokenBucketConfig` of run-010 (no `lastRefillTime` field there). -/
structure RegConfig where
  capacity : ℚ
  refillRate : ℚ
  initialTokens : Option ℚ
deriving DecidableEq, Repr

/-- Embedding of `BucketStats` of run-010: the per-key bucket state kept in the registry. -/
structure BucketStats where
  tokens : ℚ
  consumed : ℚ
  blocked : ℕ
  lastRefill : ℚ
  createdAt : ℚ
  config : RegConfig
deriving DecidableEq, Repr

/-- Embedding of `RateLimitResult` of run-010. -/
structure RegResult where
  allowed : Bool
  remainingTokens : ℚ
  retryAfter : Option ℤ
  bucketKey : String
deriving DecidableEq, Repr

/-- The registry's `Map<string, BucketStats>`. -/
abbrev Registry := List (String × BucketStats)

/-- Embedding of `TokenBucketRateLimiter.validateConfig` of run-010. -/
def validateRegConfig (c : RegConfig) : Except RLError Unit :=
  if c.capacity ≤ 0 then .error .capacityNotPositive
  else if c.refillRate ≤ 0 then .error .refillRateNotPositive
  else match c.initialTokens with
    | some t =>
      if t < 0 then .error .negativeInitialTokens
      else if t > c.capacity then .error .initialTokensExceedCapacity
      else .ok ()
    | none => .ok ()

/-- Embedding of `TokenBucketRateLimiter.validateInput` of run-010. -/
def validateInput (bucketKey : String) (tokensRequired : ℚ) (config : Option RegConfig) :
    Except RLError Unit :=
  if jsTrim bucketKey = "" then .error .emptyBucketKey
  else if tokensRequired ≤ 0 then .error .nonPositiveConsume
  else match config with
    | some c => validateRegConfig c
    | none => .ok ()

/-- The expression `config.initialTokens || config.capacity` used by run-010's
`createBucket` and `resetBucket`: JavaScript `||` takes the right operand not
only for `undefined` but also for the falsy number `0`. -/
def initialFill (c : RegConfig) : ℚ :=
  match c.initialTokens with
  | some t => if t = 0 then c.capacity else t
  | none => c.capacity

/-- Embedding of `TokenBucketRateLimiter.createBucket` of run-010. -/
def createBucket (c : RegConfig) (now : ℚ) : Except RLError BucketStats :=
  (validateRegConfig c).map fun _ =>
    { tokens := initialFill c
      consumed := 0
      blocked := 0
      lastRefill := now
      createdAt := now
      config := c }

/-- Embedding of `TokenBucketRateLimiter.refillBucket` of run-010: add
`elapsedSeconds * refillRate` clamped at capacity, but only when the amount
to add is positive. -/
def refillBucket (b : BucketStats) (now : ℚ) : BucketStats :=
  let elapsedSeconds := (now - b.lastRefill) / 1000
  let tokensToAdd := elapsedSeconds * b.config.refillRate
  if tokensToAdd > 0 then
    { b with
      tokens := min (b.tokens + tokensToAdd) b.config.capacity
      lastRefill := now }
  else b

/-- Embedding of `TokenBucketRateLimiter.calculateRetryAfter` of run-010. -/
def calculateRetryAfter (b : BucketStats) (tokensRequired : ℚ) : ℤ :=
  ⌈(tokensRequired - b.tokens) / b.config.refillRate⌉

/-- The refill-decide-commit tail of run-010's `check`, from the
`this.refillBucket(bucket, now)` line on: refill, compare, mutate, store. -/
def checkBody (reg : Registry) (bucketKey : String) (tokensRequired : ℚ)
    (bucket : BucketStats) (now : ℚ) : RegResult × Registry :=
  let b1 := refillBucket bucket now
  let allowed : Bool := decide (b1.tokens ≥ tokensRequired)
  let b2 :=
    if allowed then
      { b1 with tokens := b1.tokens - tokensRequired, consumed := b1.consumed + tokensRequired }
    else
      { b1 with blocked := b1.blocked + 1 }
  ({ allowed := allowed
     remainingTokens := b2.tokens
     retryAfter := if allowed then none else some (calculateRetryAfter b2 tokensRequired)
     bucketKey := bucketKey }, mapSet reg bucketKey b2)

/-- Embedding of `TokenBucketRateLimiter.check` of run-010; the returned pair is
(result, registry after the call). -/
def check (reg : Registry) (bucketKey : String) (tokensRequired : ℚ)
    (config : Option RegConfig) (now : ℚ) : Except RLError (RegResult × Registry) :=
  match validateInput bucketKey tokensRequired config with
  | .error e => .error e
  | .ok _ =>
    match mapGet reg bucketKey, config with
    | some bucket, _ => .ok (checkBody reg bucketKey tokensRequired bucket now)
    | none, some c =>
      match createBucket c now with
      | .error e => .error e
      | .ok bucket => .ok (checkBody reg bucketKey tokensRequired bucket now)
    | none, none => .error .unknownBucket

/-- Embedding of `TokenBucketRateLimiter.addTokens` of run-010. -/
def addTokensReg (reg : Registry) (bucketKey : String) (tokens : ℚ) :
    Except RLError (ℚ × Registry) :=
  if tokens ≤ 0 then .error .nonPositiveAdd
  else match mapGet reg bucketKey with
    | none => .error .unknownBucket
    | some b =>
      let newTokens := min (b.tokens + tokens) b.config.capacity
      .ok (newTokens, mapSet reg bucketKey { b with tokens := newTokens })

/-- Embedding of `TokenBucketRateLimiter.resetBucket` of run-010. -/
def resetBucket (reg : Registry) (bucketKey : String) (now : ℚ) :
    Except RLError Registry :=
  match mapGet reg bucketKey with
  | none => .error .unknownBucket
  | some b =>
    .ok (mapSet reg bucketKey
      { b with tokens := initialFill b.config, consumed := 0, blocked := 0, lastRefill := now })

/-- One call against the run-010 registry (the consume/top-up calls of C1). -/
inductive RegOp where
  | check (key : String) (n : ℚ) (config : Option RegConfig) (now : ℚ)
  | addTokens (key : String) (n : ℚ)
deriving DecidableEq, Repr

/-- The registry after one call; a thrown error leaves the registry as it was
(both methods validate before mutating). -/
def applyRegOp (reg : Registry) : RegOp → Registry
  | .check k n c now =>
    match check reg k n c now with
    | .ok (_, reg2) => reg2
    | .error _ => reg
  | .addTokens k n =>
    match addTokensReg reg k n with
    | .ok (_, reg2) => reg2
    | .error _ => reg

/-- The registry after a finite sequence of calls. -/
def applyRegOps (reg : Registry) (ops : List RegOp) : Registry :=
  ops.foldl applyRegOp reg

/-- The capacity invariant for one run-010 bucket. -/
def BucketStats.Valid (b : BucketStats) : Prop :=
  0 ≤ b.tokens ∧ b.tokens ≤ b.config.capacity ∧ 0 < b.config.capacity ∧
    0 < b.config.refillRate

instance (b : BucketStats) : Decidable b.Valid := by
  unfold BucketStats.Valid; infer_instance

/-- The capacity invariant for every bucket of the registry. -/
def Registry.Valid (reg : Registry) : Prop :=
  ∀ p ∈ reg, BucketStats.Valid p.2

instance (reg : Registry) : Decidable reg.Valid :=
  List.decidableBAll _ reg

/-- The allow/deny outcomes of a sequence of registry calls, in order
(`none` for a call that throws or is not a `check`). -/
def runDecisions (reg : Registry) : List RegOp → List (Option Bool)
  | [] => []
  | op :: ops =>
    let d : Option Bool :=
      match op with
      | .check k n c now =>
        match check reg k n c now with
        | .ok (r, _) => some r.allowed
        | .error _ => none
      | .addTokens _ _ => none
    d :: runDecisions (applyRegOp reg op) ops

/-- The observable decision of a run-009 `tryConsume` call:
(allowed, remainingTokens, retryAfter), or `none` when the call throws. -/
def decisionOf (e : Except RLError (RateLimitResult × TokenBucket)) :
    Option (Bool × ℚ × Option ℤ) :=
  match e with
  | .ok (r, _) => some (r.allowed, r.remainingTokens, r.retryAfter)
  | .error _ => none

/-- The observable decision of a run-010 `check` call. -/
def regDecisionOf (e : Except RLError (RegResult × Registry)) :
    Option (Bool × ℚ × Option ℤ) :=
  match e with
  | .ok (r, _) => some (r.allowed, r.remainingTokens, r.retryAfter)
  | .error _ => none

/-- The consume decision exactly as the specification words it: if
`newTokens ≥ requested` allow with `remainingTokens = newTokens - requested`,
else deny with `remainingTokens = newTokens` and
`retryAfter = ceil((requested - newTokens) / refillRate)` seconds. -/
def specConsume (newTokens requested refillRate : ℚ) : Bool × ℚ × Option ℤ :=
  if newTokens ≥ requested then (true, newTokens - requested, none)
  else (false, newTokens, some ⌈(requested - newTokens) / refillRate⌉)

/-- A freshly created run-009 bucket with capacity 10 and refill rate 2
(used by the concrete witnesses). -/
def tbW : TokenBucket := ⟨10, 0, 10, 2⟩

/-- A full registry bucket with capacity 10 and refill rate 2
(used by the concrete witnesses). -/
def bukW : BucketStats := ⟨10, 0, 0, 0, 0, ⟨10, 2, none⟩⟩

end RateLimiter

namespace Shortener

open RateLimiter (mapGet mapSet mapDelete)

/-- The `URLShortenerError` codes thrown or caught by `URLShortener`
(`url-shortener.ts`). -/
inductive USError where
  | invalidUrlType
  | invalidUrlFormat
  | urlTooLong
  | aliasCollision
  | invalidAliasLength
  | collisionResolutionFailed (attempts : ℕ)
  | notFound
  | dataCorrupted
  | invalidShortCodeType
  | shortCodeTooLong
  | invalidShortCodeChars
deriving DecidableEq, Repr

/-- Embedding of `ShortenedUrl`; `createdAt` is the `new Date()` timestamp. -/
structure ShortenedUrl where
  id : String
  originalUrl : String
  shortCode : String
  createdAt : ℚ
  clickCount : ℕ
deriving DecidableEq, Repr

/-- The three index maps owned by `URLShortener`: id → record, code → id,
original URL → code. -/
structure Store where
  urlMap : List (String × ShortenedUrl)
  codeToIdMap : List (String × String)
  originalUrlToCodeMap : List (String × String)
deriving DecidableEq, Repr

/-- A freshly constructed `URLShortener`'s maps. -/
def emptyStore : Store := ⟨[], [], []⟩

/-- Embedding of `BASE62_CHARS`. -/
def BASE62_CHARS : List Char :=
  "0123456789ABCDEFGHIJKLMNOPQRSTUVWXYZabcdefghijklmnopqrstuvwxyz".data

/-- Embedding of `DEFAULT_SHORT_CODE_LENGTH`. -/
def DEFAULT_SHORT_CODE_LENGTH : ℕ := 6

/-- Embedding of `MAX_COLLISION_RETRIES`. -/
def MAX_COLLISION_RETRIES : ℕ := 5

/-- Embedding of `MAX_CUSTOM_ALIAS_LENGTH`. -/
def MAX_CUSTOM_ALIAS_LENGTH : ℕ := 20

/-- The external inputs of a `shorten` call: `generateId()`'s result, the
`new Date()` timestamp, and the per-attempt `Date.now().toString(36).slice(-2)`
and `Math.random().toString(36).substring(2, 4)` strings consumed inside
`resolveCollision` (all produced by the JavaScript runtime, not by this
code). -/
structure Env where
  newId : String
  nowDate : ℚ
  tsSuffix : ℕ → String
  randSuffix : ℕ → String

/-- JavaScript `ToInt32`: reduce an exact integer to a signed 32-bit value. -/
def toInt32 (x : ℤ) : ℤ := (x + 2 ^ 31) % 2 ^ 32 - 2 ^ 31

/-- One loop iteration of `generateHash`:
`hash = ((hash << 5) - hash) + char; hash = hash & hash` (the `<< 5` is a
32-bit shift, the `& hash` coerces back to a 32-bit integer). -/
def hashStep (hash : ℤ) (c : ℕ) : ℤ :=
  toInt32 (toInt32 (hash * 32) - hash + c)

/-- Embedding of `generateHash`: fold `hashStep` over the UTF-16 code units starting from
0, then `Math.abs`. -/
def generateHash (input : String) : ℕ :=
  (input.data.foldl (fun h c => hashStep h c.toNat) 0).natAbs

/-- The digit-emitting loop `while (n > 0)` of `encodeBase62`; the first
argument is structural-recursion fuel — `n` strictly decreases to `n / 62`
each iteration, so `num` iterations always suffice. -/
def encodeBase62Aux : ℕ → ℕ → List Char → List Char
  | 0, _, acc => acc
  | fuel + 1, n, acc =>
    if n = 0 then acc
    else encodeBase62Aux fuel (n / 62) (BASE62_CHARS.getD (n % 62) '0' :: acc)

/-- Embedding of `encodeBase62`. -/
def encodeBase62 (num : ℕ) : String :=
  if num = 0 then "0" else String.mk (encodeBase62Aux num num [])

/-- Embedding of `generateUniqueShortCode`: hash, base62-encode, `substring(0, 6)`, then
`padEnd(6, '0')`. -/
def generateUniqueShortCode (originalUrl : String) : String :=
  let shortCode := (encodeBase62 (generateHash originalUrl)).data.take
    DEFAULT_SHORT_CODE_LENGTH
  if shortCode.length < DEFAULT_SHORT_CODE_LENGTH then
    String.mk (shortCode ++ List.replicate (DEFAULT_SHORT_CODE_LENGTH - shortCode.length) '0')
  else String.mk shortCode

/-- The loop body of `resolveCollision`; `taken` is `codeToIdMap.has`,
`attempts` the counter and `fuel` the remaining iterations of
`while (attempts < MAX_COLLISION_RETRIES)`; total by construction. -/
def resolveCollisionAux (taken : String → Bool) (existingCode originalUrl : String)
    (env : Env) : ℕ → ℕ → Except USError String
  | _, 0 => .error (.collisionResolutionFailed MAX_COLLISION_RETRIES)
  | attempts, fuel + 1 =>
    let att := attempts + 1
    let candidate1 := String.mk (existingCode.data.take (existingCode.length - 2))
      ++ env.tsSuffix att
    if ¬ taken candidate1 then .ok candidate1
    else
      let candidate2 := String.mk ((encodeBase62 (generateHash
        (originalUrl ++ Nat.repr att))).data.take DEFAULT_SHORT_CODE_LENGTH)
      if ¬ taken candidate2 then .ok candidate2
      else
        let candidate3 := String.mk (existingCode.data.take (existingCode.length - 2))
          ++ env.randSuffix att
        if ¬ taken candidate3 then .ok candidate3
        else resolveCollisionAux taken existingCode originalUrl env att fuel

/-- Embedding of `resolveCollision`: at most `MAX_COLLISION_RETRIES` rounds of the three
candidate strategies, else the terminal `COLLISION_RESOLUTION_FAILED` error
whose payload records `attempts: MAX_COLLISION_RETRIES`. -/
def resolveCollision (taken : String → Bool) (existingCode originalUrl : String)
    (env : Env) : Except USError String :=
  resolveCollisionAux taken existingCode originalUrl env 0 MAX_COLLISION_RETRIES

/-- Membership in the normalized-alias character class `[a-z0-9-_]`. -/
def isAliasChar (c : Char) : Bool :=
  (97 ≤ c.toNat && c.toNat ≤ 122) || (48 ≤ c.toNat && c.toNat ≤ 57) ||
    c.toNat == 45 || c.toNat == 95

/-- Embedding of `normalizeCustomAlias`: lowercase, strip to `[a-z0-9-_]`, cap at
`MAX_CUSTOM_ALIAS_LENGTH`, reject results shorter than 2. -/
def normalizeCustomAlias (s : String) : Except USError String :=
  let normalized :=
    String.mk (((s.data.map Char.toLower).filter isAliasChar).take MAX_CUSTOM_ALIAS_LENGTH)
  if normalized.length < 2 then .error .invalidAliasLength
  else .ok normalized

/-- Embedding of `validateUrl`; the `new URL(...)` parse with its protocol allow-list
(`isValidUrl`) is a JavaScript runtime primitive, passed in as an external
predicate. -/
def validateUrl (isValidUrl : String → Bool) (url : String) : Except USError Unit :=
  if url = "" then .error .invalidUrlType
  else if ¬ isValidUrl url then .error .invalidUrlFormat
  else if url.length > 2048 then .error .urlTooLong
  else .ok ()

/-- Membership in the short-code character class `[a-zA-Z0-9-_]`. -/
def isCodeChar (c : Char) : Bool :=
  (97 ≤ c.toNat && c.toNat ≤ 122) || (65 ≤ c.toNat && c.toNat ≤ 90) ||
    (48 ≤ c.toNat && c.toNat ≤ 57) || c.toNat == 45 || c.toNat == 95

/-- Embedding of `validateShortCode`. -/
def validateShortCode (shortCode : String) : Except USError Unit :=
  if shortCode = "" then .error .invalidShortCodeType
  else if shortCode.length > MAX_CUSTOM_ALIAS_LENGTH then .error .shortCodeTooLong
  else if ¬ shortCode.data.all isCodeChar then .error .invalidShortCodeChars
  else .ok ()

/-- The observable part of a successful `shorten` (the `shortUrl` field is
`BASE_DOMAIN + "/" + shortCode`, a pure function of `shortCode`, and is
omitted; `message` and `collisionResolved` are `undefined` when absent). -/
structure ShortenResult where
  shortCode : String
  originalUrl : String
  message : Option String
  collisionResolved : Option Bool
deriving DecidableEq, Repr

/-- The record creation and triple-index insertion at the end of `shorten`. -/
def insertRecord (env : Env) (st : Store) (originalUrl code : String)
    (collisionResolved : Bool) : ShortenResult × Store :=
  let rec0 : ShortenedUrl := ⟨env.newId, originalUrl, code, env.nowDate, 0⟩
  ({ shortCode := code, originalUrl := originalUrl, message := none,
     collisionResolved := some collisionResolved },
   { urlMap := mapSet st.urlMap env.newId rec0
     codeToIdMap := mapSet st.codeToIdMap code env.newId
     originalUrlToCodeMap := mapSet st.originalUrlToCodeMap originalUrl code })

/-- The JavaScript truthiness test `if (options.customAlias)`: an empty alias
string behaves like an absent one. -/
def truthyAlias : Option String → Option String
  | some s => if s = "" then none else some s
  | none => none

/-- Embedding of `URLShortener.shorten`; a thrown `URLShortenerError` is `Except.error`. -/
def shorten (isValidUrl : String → Bool) (env : Env) (st : Store)
    (originalUrl : String) (customAlias : Option String) :
    Except USError (ShortenResult × Store) :=
  match validateUrl isValidUrl originalUrl with
  | .error e => .error e
  | .ok _ =>
    match mapGet st.originalUrlToCodeMap originalUrl with
    | some existingCode =>
      .ok ({ shortCode := existingCode, originalUrl := originalUrl,
             message := some "URL already shortened", collisionResolved := none }, st)
    | none =>
      match truthyAlias customAlias with
      | some ca =>
        match normalizeCustomAlias ca with
        | .error e => .error e
        | .ok code =>
          if (mapGet st.codeToIdMap code).isSome then .error .aliasCollision
          else .ok (insertRecord env st originalUrl code false)
      | none =>
        let code0 := generateUniqueShortCode originalUrl
        if (mapGet st.codeToIdMap code0).isSome then
          match resolveCollision (fun c => (mapGet st.codeToIdMap c).isSome)
              code0 originalUrl env with
          | .error e => .error e
          | .ok code => .ok (insertRecord env st originalUrl code true)
        else .ok (insertRecord env st originalUrl code0 false)

/-- Embedding of `URLShortener.expand`: validate, look up, increment `clickCount`; the
wrapper that converts a thrown error into `{success: false, message}` is
presentation, so the error itself is returned. -/
def expand (st : Store) (shortCode : String) : Except USError (String × Store) :=
  match validateShortCode shortCode with
  | .error e => .error e
  | .ok _ =>
    match mapGet st.codeToIdMap shortCode with
    | none => .error .notFound
    | some id =>
      match mapGet st.urlMap id with
      | none => .error .dataCorrupted
      | some rec0 =>
        let rec1 := { rec0 with clickCount := rec0.clickCount + 1 }
        .ok (rec1.originalUrl, { st with urlMap := mapSet st.urlMap id rec1 })

/-- Embedding of `URLShortener.getStats` (returns a copy of the record or `null`). -/
def getStats (st : Store) (shortCode : String) : Option ShortenedUrl :=
  match mapGet st.codeToIdMap shortCode with
  | none => none
  | some id => mapGet st.urlMap id

/-- Embedding of `URLShortener.deleteUrl`: remove from all three maps, `false` when the
code (or its record) is unknown. -/
def deleteUrl (st : Store) (shortCode : String) : Bool × Store :=
  match mapGet st.codeToIdMap shortCode with
  | none => (false, st)
  | some id =>
    match mapGet st.urlMap id with
    | none => (false, st)
    | some rec0 =>
      (true,
       { urlMap := mapDelete st.urlMap id
         codeToIdMap := mapDelete st.codeToIdMap shortCode
         originalUrlToCodeMap := mapDelete st.originalUrlToCodeMap rec0.originalUrl })

/-- A concrete environment for the witnesses (first call). -/
def envW1 : Env := ⟨"id1", 0, fun _ => "t1", fun _ => "r1"⟩

/-- A concrete environment for the witnesses (second call). -/
def envW2 : Env := ⟨"id2", 0, fun _ => "t2", fun _ => "r2"⟩

/-- A concrete original URL for the witnesses. -/
def urlW : String := "https://a.com"

/-- The store after shortening `urlW` into an empty store. -/
def stW1 : Store :=
  match shorten (fun _ => true) envW1 emptyStore urlW none with
  | .ok (_, st) => st
  | .error _ => emptyStore

/-- The short code produced by that first `shorten` call. -/
def cW1 : String :=
  match shorten (fun _ => true) envW1 emptyStore urlW none with
  | .ok (r, _) => r.shortCode
  | .error _ => ""

/-- The result record of that first `shorten` call. -/
def rW1 : ShortenResult := ⟨cW1, urlW, none, some false⟩

/-- A second concrete URL for the custom-alias witness. -/
def urlB : String := "https://b.com"

/-- The store after shortening `urlB` with custom alias "My Alias!" into an
empty store. -/
def stA1 : Store :=
  match shorten (fun _ => true) envW1 emptyStore urlB (some "My Alias!") with
  | .ok (_, st) => st
  | .error _ => emptyStore

/-- A store whose `codeToIdMap` already holds the hash-based code of `urlW`
and every candidate its collision ladder tries under `envW1`. -/
def stC : Store :=
  ⟨[], [("PxB4V0", "x0"), ("PxB4t1", "x1"), ("PxB4r1", "x2"), ("15PCLU", "x3"),
    ("15PCLV", "x4"), ("15PCLW", "x5"), ("15PCLX", "x6"), ("15PCLY", "x7")], []⟩

end Shortener

namespace RateLimiter

/-! ### Association-list lemmas -/

theorem mem_of_mapGet_eq_some {α : Type} {m : List (String × α)} {k : String} {v : α}
    (h : mapGet m k = some v) : ∃ x ∈ m, x.2 = v := by
  induction m with
  | nil => simp [mapGet] at h
  | cons a as ih =>
    unfold mapGet at h
    split at h
    · exact ⟨a, List.mem_cons_self a as, by injection h⟩
    · rcases ih h with ⟨x, hx, hv⟩
      exact ⟨x, List.mem_cons_of_mem a hx, hv⟩

theorem mapSet_forall {α : Type} {P : String × α → Prop} (m : List (String × α))
    (k : String) (v : α) (hm : ∀ p ∈ m, P p) (hv : P (k, v)) :
    ∀ p ∈ mapSet m k v, P p := by
  induction m with
  | nil =>
    intro p hp
    simp only [mapSet, List.mem_singleton] at hp
    subst hp; exact hv
  | cons a as ih =>
    intro p hp
    by_cases hc : a.1 == k
    · rw [mapSet, if_pos hc] at hp
      rcases List.mem_cons.1 hp with rfl | h
      · exact hv
      · exact hm p (List.mem_cons_of_mem a h)
    · rw [mapSet, if_neg hc] at hp
      rcases List.mem_cons.1 hp with h | h
      · subst h; exact hm p (List.mem_cons_self p as)
      · exact ih (fun q hq => hm q (List.mem_cons_of_mem a hq)) p h

theorem mapGet_mapSet_self {α : Type} (m : List (String × α)) (k : String) (v : α) :
    mapGet (mapSet m k v) k = some v := by
  induction m with
  | nil => simp [mapGet, mapSet]
  | cons a as ih =>
    unfold mapSet
    split
    · simp [mapGet]
    · next h => simp only [mapGet, h, if_neg]; exact ih

theorem mapGet_eq_none_of_not_mem {α : Type} {m : List (String × α)} {k : String}
    (h : k ∉ m.map Prod.fst) : mapGet m k = none := by
  induction m with
  | nil => rfl
  | cons a as ih =>
    simp only [List.map_cons, List.mem_cons] at h
    push_neg at h
    have hne : ¬ (a.1 == k) = true := by
      simp only [beq_iff_eq]
      exact fun he => h.1 he.symm
    rw [mapGet, if_neg hne]
    exact ih h.2

theorem mapGet_mapDelete_self {α : Type} {m : List (String × α)} {k : String}
    (hnd : (m.map Prod.fst).Nodup) : mapGet (mapDelete m k) k = none := by
  induction m with
  | nil => rfl
  | cons a as ih =>
    simp only [List.map_cons, List.nodup_cons] at hnd
    by_cases hc : (a.1 == k) = true
    · rw [mapDelete, if_pos hc]
      have hak : a.1 = k := by simpa using hc
      subst hak
      exact mapGet_eq_none_of_not_mem hnd.1
    · rw [mapDelete, if_neg hc, mapGet, if_neg hc]
      exact ih hnd.2

/-! ### Validity lemmas for the run-009 bucket -/

theorem validateConfig_ok {cfg : TokenBucketConfig} {now : ℚ}
    (h : validateConfig cfg now = .ok ()) :
    0 < cfg.capacity ∧ 0 < cfg.refillRate ∧
      ∀ t, cfg.initialTokens = some t → 0 ≤ t ∧ t ≤ cfg.capacity := by
  unfold validateConfig at h
  by_cases h1 : cfg.capacity ≤ 0
  · simp [h1] at h
  by_cases h2 : cfg.refillRate ≤ 0
  · simp [h1, h2] at h
  refine ⟨not_le.1 h1, not_le.1 h2, ?_⟩
  intro t ht
  rw [if_neg h1, if_neg h2, ht] at h
  by_cases h3 : t < 0
  · simp [h3] at h
  by_cases h4 : t > cfg.capacity
  · simp [h3, h4] at h
  exact ⟨not_lt.1 h3, not_lt.1 h4⟩

theorem mkTokenBucket_valid {cfg : TokenBucketConfig} {now : ℚ} {b : TokenBucket}
    (h : mkTokenBucket cfg now = .ok b) : b.Valid := by
  unfold mkTokenBucket at h
  cases hv : validateConfig cfg now with
  | error e => rw [hv] at h; simp [Except.map] at h
  | ok u =>
    cases u
    obtain ⟨h1, h2, h3⟩ := validateConfig_ok hv
    rw [hv] at h
    simp only [Except.map, Except.ok.injEq] at h
    subst h
    cases hit : cfg.initialTokens with
    | none => exact ⟨by simpa [hit] using h1.le, by simp [hit], h1, h2⟩
    | some t =>
      obtain ⟨ht0, ht1⟩ := h3 t hit
      exact ⟨by simpa [hit] using ht0, by simpa [hit] using ht1, h1, h2⟩

theorem refill_valid {b : TokenBucket} (hb : b.Valid) (now : ℚ) :
    (b.refill now).Valid := by
  obtain ⟨h0, h1, h2, h3⟩ := hb
  unfold TokenBucket.refill
  dsimp only
  split
  · exact ⟨h0, h1, h2, h3⟩
  · next hel =>
    refine ⟨le_min h2.le ?_, min_le_left _ _, h2, h3⟩
    have : (0 : ℚ) < (now - b.lastRefillTime) / 1000 * b.refillRate :=
      mul_pos (div_pos (by linarith [not_le.1 hel]) (by norm_num)) h3
    linarith

theorem refill_refillRate (b : TokenBucket) (now : ℚ) :
    (b.refill now).refillRate = b.refillRate := by
  unfold TokenBucket.refill; dsimp only; split <;> rfl

theorem refill_capacity (b : TokenBucket) (now : ℚ) :
    (b.refill now).capacity = b.capacity := by
  unfold TokenBucket.refill; dsimp only; split <;> rfl

theorem tryConsume_valid {b b2 : TokenBucket} {r : RateLimitResult} {n now : ℚ}
    (hb : b.Valid) (h : b.tryConsume n now = .ok (r, b2)) : b2.Valid := by
  unfold TokenBucket.tryConsume at h
  by_cases hn : n ≤ 0
  · simp [hn] at h
  by_cases hcap : n > b.capacity
  · simp [hn, hcap] at h
  rw [if_neg hn, if_neg hcap] at h
  dsimp only at h
  obtain ⟨g0, g1, g2, g3⟩ := refill_valid hb now
  split at h
  · next hge =>
    simp only [Except.ok.injEq, Prod.mk.injEq] at h
    obtain ⟨-, h⟩ := h
    subst h
    exact ⟨by simpa using sub_nonneg.2 hge, by
      simp only
      linarith [not_le.1 hn], g2, g3⟩
  · next hlt =>
    simp only [Except.ok.injEq, Prod.mk.injEq] at h
    obtain ⟨-, h⟩ := h
    subst h
    exact ⟨g0, g1, g2, g3⟩

theorem addTokens_valid {b b2 : TokenBucket} {n : ℚ}
    (hb : b.Valid) (h : b.addTokens n = .ok b2) : b2.Valid := by
  unfold TokenBucket.addTokens at h
  obtain ⟨h0, h1, h2, h3⟩ := hb
  by_cases hn : n ≤ 0
  · simp [hn] at h
  rw [if_neg hn] at h
  simp only [Except.ok.injEq] at h
  subst h
  exact ⟨le_min h2.le (by linarith [not_le.1 hn]), min_le_left _ _, h2, h3⟩

theorem applyOp_valid {b : TokenBucket} (hb : b.Valid) (op : TBOp) :
    (b.applyOp op).Valid := by
  cases op with
  | tryConsume n now =>
    rw [TokenBucket.applyOp]
    cases h : b.tryConsume n now with
    | ok p =>
      obtain ⟨r, b2⟩ := p
      exact tryConsume_valid hb h
    | error e => exact hb
  | addTokens n =>
    rw [TokenBucket.applyOp]
    cases h : b.addTokens n with
    | ok b2 => exact addTokens_valid hb h
    | error e => exact hb

theorem applyOps_valid {b : TokenBucket} (hb : b.Valid) (ops : List TBOp) :
    (b.applyOps ops).Valid := by
  induction ops generalizing b with
  | nil => exact hb
  | cons op ops ih => exact ih (applyOp_valid hb op)

/-! ### Validity lemmas for the run-010 registry -/

theorem validateRegConfig_ok {c : RegConfig} (h : validateRegConfig c = .ok ()) :
    0 < c.capacity ∧ 0 < c.refillRate ∧
      ∀ t, c.initialTokens = some t → 0 ≤ t ∧ t ≤ c.capacity := by
  unfold validateRegConfig at h
  by_cases h1 : c.capacity ≤ 0
  · simp [h1] at h
  by_cases h2 : c.refillRate ≤ 0
  · simp [h1, h2] at h
  refine ⟨not_le.1 h1, not_le.1 h2, ?_⟩
  intro t ht
  rw [if_neg h1, if_neg h2, ht] at h
  by_cases h3 : t < 0
  · simp [h3] at h
  by_cases h4 : t > c.capacity
  · simp [h3, h4] at h
  exact ⟨not_lt.1 h3, not_lt.1 h4⟩

theorem createBucket_valid {c : RegConfig} {now : ℚ} {b : BucketStats}
    (h : createBucket c now = .ok b) : b.Valid := by
  unfold createBucket at h
  cases hv : validateRegConfig c with
  | error e => rw [hv] at h; simp [Except.map] at h
  | ok u =>
    cases u
    obtain ⟨h1, h2, h3⟩ := validateRegConfig_ok hv
    rw [hv] at h
    simp only [Except.map, Except.ok.injEq] at h
    subst h
    have hfill : 0 ≤ initialFill c ∧ initialFill c ≤ c.capacity := by
      unfold initialFill
      cases hit : c.initialTokens with
      | none => exact ⟨h1.le, le_refl _⟩
      | some t =>
        obtain ⟨ht0, ht1⟩ := h3 t hit
        dsimp only
        by_cases ht : t = 0
        · rw [if_pos ht]; exact ⟨h1.le, le_refl _⟩
        · rw [if_neg ht]; exact ⟨ht0, ht1⟩
    exact ⟨hfill.1, hfill.2, h1, h2⟩

theorem refillBucket_valid {b : BucketStats} (hb : b.Valid) (now : ℚ) :
    (refillBucket b now).Valid := by
  obtain ⟨h0, h1, h2, h3⟩ := hb
  unfold refillBucket
  dsimp only
  split
  · next hpos =>
    exact ⟨le_min (by linarith) h2.le, min_le_right _ _, h2, h3⟩
  · exact ⟨h0, h1, h2, h3⟩

theorem refillBucket_config (b : BucketStats) (now : ℚ) :
    (refillBucket b now).config = b.config := by
  unfold refillBucket; dsimp only; split <;> rfl

theorem refillBucket_tokens_le {b : BucketStats} (hb : b.Valid) (now : ℚ) :
    (refillBucket b now).tokens ≤ b.config.capacity := by
  have := (refillBucket_valid hb now).2.1
  rwa [refillBucket_config] at this

theorem validateInput_ok {key : String} {n : ℚ} {config : Option RegConfig}
    (h : validateInput key n config = .ok ()) :
    0 < n ∧ ∀ c, config = some c → validateRegConfig c = .ok () := by
  unfold validateInput at h
  by_cases h1 : jsTrim key = ""
  · simp [h1] at h
  by_cases h2 : n ≤ 0
  · simp [h1, h2] at h
  rw [if_neg h1, if_neg h2] at h
  refine ⟨not_le.1 h2, ?_⟩
  intro c hc
  rw [hc] at h
  exact h

theorem checkBody_valid {reg : Registry} {bucket : BucketStats} {key : String}
    {n now : ℚ} (hreg : reg.Valid) (hb : bucket.Valid) (hn : 0 < n) :
    Registry.Valid (checkBody reg key n bucket now).2 := by
  unfold checkBody
  dsimp only
  have h1 := refillBucket_valid hb now
  obtain ⟨g0, g1, g2, g3⟩ := h1
  apply mapSet_forall reg key _ hreg
  split
  · next hall =>
    have hge : n ≤ (refillBucket bucket now).tokens := of_decide_eq_true hall
    exact ⟨by simpa using sub_nonneg.2 hge, by simp only; linarith, g2, g3⟩
  · exact ⟨g0, g1, g2, g3⟩

theorem check_valid {reg reg2 : Registry} {key : String} {n now : ℚ}
    {config : Option RegConfig} {r : RegResult}
    (hreg : reg.Valid) (h : check reg key n config now = .ok (r, reg2)) :
    reg2.Valid := by
  unfold check at h
  cases hv : validateInput key n config with
  | error e => rw [hv] at h; cases h
  | ok u =>
    cases u
    obtain ⟨hn, hc⟩ := validateInput_ok hv
    rw [hv] at h
    dsimp only at h
    cases hg : mapGet reg key with
    | some bucket =>
      rw [hg] at h
      dsimp only at h
      have hb : bucket.Valid := by
        rcases mem_of_mapGet_eq_some hg with ⟨x, hx, hxv⟩
        have := hreg x hx
        rwa [hxv] at this
      simp only [Except.ok.injEq] at h
      have hv2 := @checkBody_valid reg bucket key n now hreg hb hn
      rw [h] at hv2
      exact hv2
    | none =>
      rw [hg] at h
      cases config with
      | none => dsimp only at h; cases h
      | some c =>
        dsimp only at h
        cases hcb : createBucket c now with
        | error e => rw [hcb] at h; cases h
        | ok bucket =>
          rw [hcb] at h
          dsimp only at h
          have hb : bucket.Valid := createBucket_valid hcb
          simp only [Except.ok.injEq] at h
          have hv2 := @checkBody_valid reg bucket key n now hreg hb hn
          rw [h] at hv2
          exact hv2

theorem addTokensReg_valid {reg reg2 : Registry} {key : String} {n t : ℚ}
    (hreg : reg.Valid) (h : addTokensReg reg key n = .ok (t, reg2)) :
    reg2.Valid := by
  unfold addTokensReg at h
  by_cases hn : n ≤ 0
  · simp [hn] at h
  rw [if_neg hn] at h
  cases hg : mapGet reg key with
  | none => rw [hg] at h; cases h
  | some b =>
    rw [hg] at h
    have hb : b.Valid := by
      rcases mem_of_mapGet_eq_some hg with ⟨x, hx, hxv⟩
      have := hreg x hx
      rwa [hxv] at this
    obtain ⟨g0, g1, g2, g3⟩ := hb
    simp only [Except.ok.injEq, Prod.mk.injEq] at h
    rw [← h.2]
    apply mapSet_forall reg key _ hreg
    exact ⟨le_min (by linarith [not_le.1 hn]) g2.le, min_le_right _ _, g2, g3⟩

theorem applyRegOp_valid {reg : Registry} (hreg : reg.Valid) (op : RegOp) :
    (applyRegOp reg op).Valid := by
  cases op with
  | check k n c now =>
    rw [applyRegOp]
    cases h : check reg k n c now with
    | ok p =>
      obtain ⟨r, reg2⟩ := p
      exact check_valid hreg h
    | error e => exact hreg
  | addTokens k n =>
    rw [applyRegOp]
    cases h : addTokensReg reg k n with
    | ok p =>
      obtain ⟨t, reg2⟩ := p
      exact addTokensReg_valid hreg h
    | error e => exact hreg

theorem applyRegOps_valid {reg : Registry} (hreg : reg.Valid) (ops : List RegOp) :
    (applyRegOps reg ops).Valid := by
  induction ops generalizing reg with
  | nil => exact hreg
  | cons op ops ih => exact ih (applyRegOp_valid hreg op)

/-! ### Decision lemmas -/

theorem tryConsume_decision (b : TokenBucket) {n : ℚ} (now : ℚ)
    (h0 : 0 < n) (hc : n ≤ b.capacity) :
    decisionOf (b.tryConsume n now) =
      some (specConsume (b.refill now).tokens n b.refillRate) := by
  unfold TokenBucket.tryConsume
  rw [if_neg (not_le.2 h0), if_neg (not_lt.2 hc)]
  dsimp only
  unfold decisionOf specConsume
  by_cases hge : (b.refill now).tokens ≥ n
  · rw [if_pos hge, if_pos hge]
  · rw [if_neg hge, if_neg hge]
    dsimp only
    rw [refill_refillRate, mul_div_cancel_right₀ _ (by norm_num : (1000 : ℚ) ≠ 0)]

theorem check_decision {reg : Registry} {key : String} {bkt : BucketStats}
    (n now : ℚ) (h0 : 0 < n) (hkey : ¬ jsTrim key = "")
    (hk : mapGet reg key = some bkt) :
    regDecisionOf (check reg key n none now) =
      some (specConsume (refillBucket bkt now).tokens n bkt.config.refillRate) := by
  unfold check validateInput
  rw [if_neg hkey, if_neg (not_le.2 h0)]
  dsimp only
  rw [hk]
  dsimp only
  unfold checkBody regDecisionOf specConsume
  dsimp only
  by_cases hge : (refillBucket bkt now).tokens ≥ n
  · simp [decide_eq_true hge, hge]
  · simp [decide_eq_false hge, hge, calculateRetryAfter, refillBucket_config]

/-! ### Claim theorems for the rate limiter -/

/-- C1: starting from a validly created bucket, after every finite sequence of
consume (`tryConsume` / `check`) and manual top-up (`addTokens`) calls — each
consume performing its lazy refill first — the token count satisfies
`0 ≤ tokens ≤ capacity`; this holds for the run-009 `TokenBucket` and for
every bucket of the run-010 registry. Every prefix of a sequence is itself a
sequence, so the invariant holds after every intermediate operation as well. -/
theorem capacity_invariant (cfg : TokenBucketConfig) (t0 : ℚ) (tb : TokenBucket)
    (h : mkTokenBucket cfg t0 = .ok tb) (ops : List TBOp) (regOps : List RegOp) :
    (tb.applyOps ops).Valid ∧ (applyRegOps [] regOps).Valid :=
  ⟨applyOps_valid (mkTokenBucket_valid h) ops,
   applyRegOps_valid (fun p hp => absurd hp (List.not_mem_nil p)) regOps⟩

/-- Witness for C1: a concrete bucket (capacity 10, refill rate 2) and
concrete call sequences. -/
theorem capacity_invariant_witness :
    (tbW.applyOps [TBOp.tryConsume 3 0, TBOp.addTokens 5]).Valid ∧
      (applyRegOps [] [RegOp.check "k" 1 (some ⟨10, 2, none⟩) 0,
        RegOp.addTokens "k" 4]).Valid :=
  capacity_invariant ⟨10, 2, none, none⟩ 0 tbW (by rfl)
    [TBOp.tryConsume 3 0, TBOp.addTokens 5]
    [RegOp.check "k" 1 (some ⟨10, 2, none⟩) 0, RegOp.addTokens "k" 4]

/-- C2: with capacity 10, one hundred `check(key, 1)` calls on the same key at
one instant admit exactly 10 and deny 90. The JavaScript event loop runs each
call's refill-decide-commit to completion (the code has no `await` inside it),
so every concurrent interleaving is a serialization of the 100 atomic calls;
the statement quantifies over any list made of those 100 calls. In particular
no two calls both observe the same pre-refill count and over-admit. -/
theorem concurrent_checks_admit_exactly_capacity (ops : List RegOp)
    (hlen : ops.length = 100)
    (hmem : ∀ op ∈ ops, op = RegOp.check "k" 1 (some ⟨10, 2, none⟩) 0) :
    (runDecisions [] ops).count (some true) = 10 ∧
      (runDecisions [] ops).count (some false) = 90 := by
  have hrep : ops = List.replicate 100 (RegOp.check "k" 1 (some ⟨10, 2, none⟩) 0) :=
    List.eq_replicate_iff.2 ⟨hlen, hmem⟩
  rw [hrep]
  constructor <;> decide

/-- Witness for C2: the literal list of 100 identical calls. -/
theorem concurrent_checks_admit_exactly_capacity_witness :
    (runDecisions [] (List.replicate 100
        (RegOp.check "k" 1 (some ⟨10, 2, none⟩) 0))).count (some true) = 10 ∧
      (runDecisions [] (List.replicate 100
        (RegOp.check "k" 1 (some ⟨10, 2, none⟩) 0))).count (some false) = 90 :=
  concurrent_checks_admit_exactly_capacity _ (by simp)
    (fun op h => List.eq_of_mem_replicate h)

/-- C3: a consume call decides exactly as the specification's formula: after
the lazy refill yields `newTokens`, allow with `remaining = newTokens - n`
when `newTokens ≥ n`, else deny with `remaining = newTokens` and
`retryAfter = ceil((n - newTokens) / refillRate)` seconds — for run-009
`tryConsume` and the run-010 `check`; and concretely for capacity 10, refill
rate 2: consuming 10 is allowed with remaining 0, an immediate further
consume of 1 is denied with `retryAfter = 1`. -/
theorem consume_decision_matches_spec (b : TokenBucket) (n now : ℚ)
    (reg : Registry) (key : String) (bkt : BucketStats)
    (h0 : 0 < n) (hc : n ≤ b.capacity) (hkey : ¬ jsTrim key = "")
    (hk : mapGet reg key = some bkt) :
    decisionOf (b.tryConsume n now) =
      some (specConsume (b.refill now).tokens n b.refillRate) ∧
    regDecisionOf (check reg key n none now) =
      some (specConsume (refillBucket bkt now).tokens n bkt.config.refillRate) ∧
    decisionOf (tbW.tryConsume 10 0) = some (true, 0, none) ∧
    decisionOf ((tbW.applyOp (TBOp.tryConsume 10 0)).tryConsume 1 0) =
      some (false, 0, some 1) :=
  ⟨tryConsume_decision b now h0 hc, check_decision n now h0 hkey hk,
   by decide, by decide⟩

/-- Witness for C3 at a concrete bucket, registry and request. -/
theorem consume_decision_matches_spec_witness :
    (decisionOf (tbW.tryConsume 5 0) =
      some (specConsume (tbW.refill 0).tokens 5 tbW.refillRate) ∧
    regDecisionOf (check [("k", bukW)] "k" 5 none 0) =
      some (specConsume (refillBucket bukW 0).tokens 5 bukW.config.refillRate) ∧
    decisionOf (tbW.tryConsume 10 0) = some (true, 0, none) ∧
    decisionOf ((tbW.applyOp (TBOp.tryConsume 10 0)).tryConsume 1 0) =
      some (false, 0, some 1)) :=
  consume_decision_matches_spec tbW 5 0 [("k", bukW)] "k" bukW
    (by decide) (by decide) (by decide) (by rfl)

/-- C4: a consume call whose `now` lies before the bucket's last refill time
applies no (in particular no negative) refill: the run-009 `refill` and the
run-010 `refillBucket` both leave the bucket state completely unchanged, so
the decision sees the unmodified token count. -/
theorem clock_regression_adds_no_tokens (b : TokenBucket) (s : BucketStats)
    (now : ℚ) (hb : now < b.lastRefillTime) (hs : now < s.lastRefill)
    (hr : 0 < s.config.refillRate) :
    b.refill now = b ∧ refillBucket s now = s := by
  constructor
  · unfold TokenBucket.refill
    dsimp only
    rw [if_pos (by linarith : now - b.lastRefillTime ≤ 0)]
  · unfold refillBucket
    dsimp only
    rw [if_neg]
    have : (now - s.lastRefill) / 1000 * s.config.refillRate < 0 :=
      mul_neg_of_neg_of_pos (div_neg_of_neg_of_pos (by linarith) (by norm_num)) hr
    exact not_lt.2 this.le

/-- Witness for C4: `now = 50` against buckets whose last refill was at 100. -/
theorem clock_regression_adds_no_tokens_witness :
    TokenBucket.refill ⟨5, 100, 10, 2⟩ 50 = ⟨5, 100, 10, 2⟩ ∧
      refillBucket ⟨5, 0, 0, 100, 0, ⟨10, 2, none⟩⟩ 50 =
        ⟨5, 0, 0, 100, 0, ⟨10, 2, none⟩⟩ :=
  clock_regression_adds_no_tokens ⟨5, 100, 10, 2⟩ ⟨5, 0, 0, 100, 0, ⟨10, 2, none⟩⟩ 50
    (by decide) (by decide) (by decide)

/-- C5 counterexample: the run-010 registry does NOT reject a request that
exceeds capacity with a distinct error: `check` of 11 tokens against a full
capacity-10 bucket returns an ordinary transient denial carrying a
`retryAfter` hint (and even bumps the blocked counter), instead of throwing. -/
theorem overcapacity_transient_deny_counterexample :
    check [("k", bukW)] "k" 11 none 0 =
      .ok ({ allowed := false, remainingTokens := 10, retryAfter := some 1,
             bucketKey := "k" },
           [("k", { bukW with blocked := 1 })]) := by rfl

/-- C5 (amended): run-009's `TokenBucket.tryConsume` rejects a request
exceeding capacity with a distinct `UnsatisfiableRequest`-style error and a
non-positive request with an input error, both before any state change, and
the run-010 registry likewise rejects a non-positive request before any state
change; but in the run-010 registry a request exceeding capacity is NOT a
distinct error — `check` returns a transient denial with a `retryAfter`
hint. -/
theorem unsatisfiable_request_handling (b : TokenBucket) (n m now : ℚ)
    (reg : Registry) (key : String) (bkt : BucketStats) (cfg : Option RegConfig)
    (hb : b.Valid) (hn : b.capacity < n) (hm : m ≤ 0) (hkey : ¬ jsTrim key = "")
    (hk : mapGet reg key = some bkt) (hbkt : bkt.Valid)
    (hn2 : bkt.config.capacity < n) :
    b.tryConsume n now = .error .consumeExceedsCapacity ∧
    b.tryConsume m now = .error .nonPositiveConsume ∧
    b.applyOp (.tryConsume n now) = b ∧
    b.applyOp (.tryConsume m now) = b ∧
    check reg key m cfg now = .error .nonPositiveConsume ∧
    applyRegOp reg (.check key m cfg now) = reg ∧
    regDecisionOf (check reg key n none now) =
      some (false, (refillBucket bkt now).tokens,
        some (calculateRetryAfter (refillBucket bkt now) n)) := by
  have h0 : 0 < n := lt_trans hbkt.2.2.1 hn2
  have h1 : b.tryConsume n now = .error .consumeExceedsCapacity := by
    unfold TokenBucket.tryConsume
    rw [if_neg (not_le.2 (lt_trans hb.2.2.1 hn)), if_pos hn]
  have h2 : b.tryConsume m now = .error .nonPositiveConsume := by
    unfold TokenBucket.tryConsume
    rw [if_pos hm]
  have h5 : check reg key m cfg now = .error .nonPositiveConsume := by
    unfold check validateInput
    rw [if_neg hkey, if_pos hm]
  have hdeny : ¬ (refillBucket bkt now).tokens ≥ n :=
    not_le.2 (lt_of_le_of_lt (refillBucket_tokens_le hbkt now) hn2)
  refine ⟨h1, h2, ?_, ?_, h5, ?_, ?_⟩
  · rw [TokenBucket.applyOp, h1]
  · rw [TokenBucket.applyOp, h2]
  · rw [applyRegOp, h5]
  · unfold check validateInput
    rw [if_neg hkey, if_neg (not_le.2 h0)]
    dsimp only
    rw [hk]
    dsimp only
    unfold checkBody regDecisionOf
    dsimp only
    simp [decide_eq_false hdeny, calculateRetryAfter, refillBucket_config]

/-- Witness for the amended C5 at concrete buckets and requests. -/
theorem unsatisfiable_request_handling_witness :
    (tbW.tryConsume 11 0 = .error .consumeExceedsCapacity ∧
    tbW.tryConsume 0 0 = .error .nonPositiveConsume ∧
    tbW.applyOp (.tryConsume 11 0) = tbW ∧
    tbW.applyOp (.tryConsume 0 0) = tbW ∧
    check [("k", bukW)] "k" 0 none 0 = .error .nonPositiveConsume ∧
    applyRegOp [("k", bukW)] (.check "k" 0 none 0) = [("k", bukW)] ∧
    regDecisionOf (check [("k", bukW)] "k" 11 none 0) =
      some (false, (refillBucket bukW 0).tokens,
        some (calculateRetryAfter (refillBucket bukW 0) 11))) :=
  unsatisfiable_request_handling tbW 11 0 0 [("k", bukW)] "k" bukW none
    (by decide) (by decide) (by decide) (by decide) (by rfl) (by decide) (by decide)

/-- C10: a registry configuration with `initialTokens = 0` passes run-010's
`validateConfig` (zero is inside the allowed range), yet both `createBucket`
and `resetBucket` evaluate `initialTokens || capacity`, and JavaScript `||`
treats the number 0 as falsy — so the bucket starts (and resets to) a full
`capacity` tokens, never 0. -/
theorem zero_initial_tokens_starts_full (cap rate now : ℚ) (reg : Registry)
    (key : String) (bkt : BucketStats)
    (hc : 0 < cap) (hr : 0 < rate) (hk : mapGet reg key = some bkt)
    (hbc : bkt.config = ⟨cap, rate, some 0⟩) :
    validateRegConfig ⟨cap, rate, some 0⟩ = .ok () ∧
    (createBucket ⟨cap, rate, some 0⟩ now).map BucketStats.tokens = .ok cap ∧
    (resetBucket reg key now).map
        (fun reg2 => (mapGet reg2 key).map BucketStats.tokens) = .ok (some cap) := by
  have hvc : validateRegConfig ⟨cap, rate, some 0⟩ = .ok () := by
    unfold validateRegConfig
    rw [if_neg (not_le.2 hc), if_neg (not_le.2 hr)]
    dsimp only
    rw [if_neg (lt_irrefl 0), if_neg (not_lt.2 hc.le)]
  refine ⟨hvc, ?_, ?_⟩
  · unfold createBucket
    rw [hvc]
    simp [Except.map, initialFill]
  · unfold resetBucket
    rw [hk]
    simp only [Except.map]
    rw [mapGet_mapSet_self]
    simp [initialFill, hbc]

/-- Witness for C10: capacity 10, refill rate 2, `initialTokens = 0`. -/
theorem zero_initial_tokens_starts_full_witness :
    (validateRegConfig ⟨10, 2, some 0⟩ = .ok () ∧
    (createBucket ⟨10, 2, some 0⟩ 7).map BucketStats.tokens = .ok 10 ∧
    (resetBucket [("k", ⟨3, 4, 1, 0, 0, ⟨10, 2, some 0⟩⟩)] "k" 7).map
        (fun reg2 => (mapGet reg2 "k").map BucketStats.tokens) = .ok (some 10)) :=
  zero_initial_tokens_starts_full 10 2 7 [("k", ⟨3, 4, 1, 0, 0, ⟨10, 2, some 0⟩⟩)]
    "k" ⟨3, 4, 1, 0, 0, ⟨10, 2, some 0⟩⟩ (by decide) (by decide) (by rfl) (by rfl)

end RateLimiter

namespace Shortener

open RateLimiter (mapGet mapSet mapDelete mapGet_mapSet_self mapGet_mapDelete_self)

/-! ### Structure of a successful shorten call -/

theorem shorten_ok_cases {v : String → Bool} {env : Env} {st st1 : Store}
    {u : String} {ca : Option String} {r1 : ShortenResult}
    (h : shorten v env st u ca = .ok (r1, st1)) :
    validateUrl v u = .ok () ∧
    ((mapGet st.originalUrlToCodeMap u = some r1.shortCode ∧ st1 = st) ∨
      st1.originalUrlToCodeMap = mapSet st.originalUrlToCodeMap u r1.shortCode) := by
  unfold shorten at h
  cases hval : validateUrl v u with
  | error e => rw [hval] at h; cases h
  | ok uu =>
    cases uu
    refine ⟨rfl, ?_⟩
    rw [hval] at h
    dsimp only at h
    cases hget : mapGet st.originalUrlToCodeMap u with
    | some c =>
      rw [hget] at h
      dsimp only at h
      simp only [Except.ok.injEq, Prod.mk.injEq] at h
      obtain ⟨hr, hst⟩ := h
      left
      subst hst
      refine ⟨?_, rfl⟩
      rw [← hr]
    | none =>
      rw [hget] at h
      dsimp only at h
      right
      cases hao : truthyAlias ca with
      | some ca2 =>
        rw [hao] at h
        dsimp only at h
        cases hn : normalizeCustomAlias ca2 with
        | error e => rw [hn] at h; cases h
        | ok code =>
          rw [hn] at h
          dsimp only at h
          by_cases ht : (mapGet st.codeToIdMap code).isSome = true
          · rw [if_pos ht] at h; cases h
          · rw [if_neg ht] at h
            simp only [Except.ok.injEq] at h
            have hst := congrArg Prod.snd h
            have hr := congrArg Prod.fst h
            dsimp only at hst hr
            rw [← hst, ← hr]
            exact rfl
      | none =>
        rw [hao] at h
        dsimp only at h
        by_cases ht : (mapGet st.codeToIdMap (generateUniqueShortCode u)).isSome = true
        · rw [if_pos ht] at h
          cases hrc : resolveCollision (fun s => (mapGet st.codeToIdMap s).isSome)
              (generateUniqueShortCode u) u env with
          | error e => rw [hrc] at h; cases h
          | ok code =>
            rw [hrc] at h
            dsimp only at h
            simp only [Except.ok.injEq] at h
            have hst := congrArg Prod.snd h
            have hr := congrArg Prod.fst h
            dsimp only at hst hr
            rw [← hst, ← hr]
            exact rfl
        · rw [if_neg ht] at h
          simp only [Except.ok.injEq] at h
          have hst := congrArg Prod.snd h
          have hr := congrArg Prod.fst h
          dsimp only at hst hr
          rw [← hst, ← hr]
          exact rfl

set_option maxRecDepth 8000

/-! ### Claim theorems for the URL shortener -/

/-- C6: a second `shorten` of an already-shortened URL (no intervening
delete) hits the original-URL index first, returns the identical `shortCode`,
and leaves the store — all three indices and every record — exactly as it
was. -/
theorem shorten_idempotent (v : String → Bool) (env1 env2 : Env)
    (st st1 : Store) (u : String) (ca : Option String) (r1 : ShortenResult)
    (h : shorten v env1 st u ca = .ok (r1, st1)) :
    shorten v env2 st1 u none =
      .ok ({ shortCode := r1.shortCode, originalUrl := u,
             message := some "URL already shortened", collisionResolved := none },
           st1) := by
  obtain ⟨hval, hcase⟩ := shorten_ok_cases h
  have hmap : mapGet st1.originalUrlToCodeMap u = some r1.shortCode := by
    rcases hcase with ⟨hm, rfl⟩ | hm
    · exact hm
    · rw [hm]; exact mapGet_mapSet_self _ _ _
  unfold shorten
  rw [hval]
  dsimp only
  rw [hmap]

/-- Witness for C6: shortening `urlW` into an empty store, then again. -/
theorem shorten_idempotent_witness :
    shorten (fun _ => true) envW2 stW1 urlW none =
      .ok ({ shortCode := rW1.shortCode, originalUrl := urlW,
             message := some "URL already shortened", collisionResolved := none },
           stW1) :=
  shorten_idempotent (fun _ => true) envW1 envW2 emptyStore stW1 urlW none rW1 (by rfl)

theorem resolveCollisionAux_all_taken (taken : String → Bool)
    (existingCode u : String) (env : Env) (hall : ∀ s, taken s = true)
    (fuel attempts : ℕ) :
    resolveCollisionAux taken existingCode u env attempts fuel =
      .error (.collisionResolutionFailed MAX_COLLISION_RETRIES) := by
  induction fuel generalizing attempts with
  | zero => rfl
  | succ f ih =>
    rw [resolveCollisionAux]
    simp only [hall, not_true, if_false]
    exact ih _

/-- C7: the collision ladder always terminates (it is a bounded recursion of
`MAX_COLLISION_RETRIES` rounds by construction); when every candidate code is
already assigned it fails with `COLLISION_RESOLUTION_FAILED`, whose payload
records exactly `MAX_COLLISION_RETRIES` attempts; and `shorten` surfaces that
terminal error to the caller instead of retrying. -/
theorem collision_ladder_terminates (taken : String → Bool)
    (existingCode u0 : String) (env0 : Env) (hall : ∀ s, taken s = true)
    (v : String → Bool) (env : Env) (st : Store) (u : String) (e : USError)
    (hvu : validateUrl v u = .ok ())
    (hfresh : mapGet st.originalUrlToCodeMap u = none)
    (htaken0 : (mapGet st.codeToIdMap (generateUniqueShortCode u)).isSome = true)
    (hres : resolveCollision (fun s => (mapGet st.codeToIdMap s).isSome)
        (generateUniqueShortCode u) u env = .error e) :
    resolveCollision taken existingCode u0 env0 =
      .error (.collisionResolutionFailed MAX_COLLISION_RETRIES) ∧
    shorten v env st u none = .error e := by
  constructor
  · exact resolveCollisionAux_all_taken taken existingCode u0 env0 hall _ _
  · unfold shorten
    rw [hvu]
    dsimp only
    rw [hfresh]
    dsimp only [truthyAlias]
    rw [if_pos htaken0, hres]

/-- Witness for C7: an always-colliding membership test, and a concrete store
already holding every candidate the ladder tries for `urlW`. -/
theorem collision_ladder_terminates_witness :
    (resolveCollision (fun _ => true) "abcdef" urlB envW2 =
      .error (.collisionResolutionFailed MAX_COLLISION_RETRIES)) ∧
    shorten (fun _ => true) envW1 stC urlW none =
      .error (.collisionResolutionFailed 5) :=
  collision_ladder_terminates (fun _ => true) "abcdef" urlB envW2 (fun _ => rfl)
    (fun _ => true) envW1 stC urlW (.collisionResolutionFailed 5)
    (by rfl) (by rfl) (by rfl) (by rfl)

/-- C8: two `shorten` calls on distinct fresh URLs with the same custom
alias: the first succeeds and assigns the normalized alias as its
`shortCode`; the second fails with `ALIAS_COLLISION` — the hash-based
resolution ladder lives only in the no-alias branch and is never entered —
and the first record is unchanged and still retrievable through the alias. -/
theorem custom_alias_exclusive (v : String → Bool) (env1 env2 : Env)
    (st st1 : Store) (u1 u2 ca code : String) (r1 : ShortenResult)
    (h1 : shorten v env1 st u1 (some ca) = .ok (r1, st1))
    (hfresh1 : mapGet st.originalUrlToCodeMap u1 = none)
    (hnorm : normalizeCustomAlias ca = .ok code)
    (hca : ¬ ca = "")
    (hvalid2 : validateUrl v u2 = .ok ())
    (hfresh2 : mapGet st1.originalUrlToCodeMap u2 = none) :
    r1.shortCode = code ∧
    shorten v env2 st1 u2 (some ca) = .error .aliasCollision ∧
    getStats st1 code = some ⟨env1.newId, u1, code, env1.nowDate, 0⟩ := by
  have htr : truthyAlias (some ca) = some ca := by
    simp only [truthyAlias]
    rw [if_neg hca]
  unfold shorten at h1
  cases hval : validateUrl v u1 with
  | error e => rw [hval] at h1; cases h1
  | ok uu =>
    cases uu
    rw [hval] at h1
    dsimp only at h1
    rw [hfresh1] at h1
    dsimp only at h1
    rw [htr] at h1
    dsimp only at h1
    rw [hnorm] at h1
    dsimp only at h1
    by_cases ht : (mapGet st.codeToIdMap code).isSome = true
    · rw [if_pos ht] at h1; cases h1
    · rw [if_neg ht] at h1
      simp only [Except.ok.injEq] at h1
      have hst := congrArg Prod.snd h1
      have hr := congrArg Prod.fst h1
      dsimp only at hst hr
      have hcode : mapGet st1.codeToIdMap code = some env1.newId := by
        rw [← hst]
        exact mapGet_mapSet_self _ _ _
      refine ⟨by rw [← hr]; exact rfl, ?_, ?_⟩
      · unfold shorten
        rw [hvalid2]
        dsimp only
        rw [hfresh2]
        dsimp only
        rw [htr]
        dsimp only
        rw [hnorm]
        dsimp only
        rw [hcode]
        exact rfl
      · unfold getStats
        rw [hcode]
        dsimp only
        rw [← hst]
        exact mapGet_mapSet_self _ _ _

/-- Witness for C8: `urlB` takes alias "My Alias!" (normalized to
"myalias"); `urlW` then requests the same alias and is rejected. -/
theorem custom_alias_exclusive_witness :
    (⟨"myalias", urlB, none, some false⟩ : ShortenResult).shortCode = "myalias" ∧
    shorten (fun _ => true) envW2 stA1 urlW (some "My Alias!") =
      .error .aliasCollision ∧
    getStats stA1 "myalias" = some ⟨"id1", urlB, "myalias", 0, 0⟩ :=
  custom_alias_exclusive (fun _ => true) envW1 envW2 emptyStore stA1 urlB urlW
    "My Alias!" "myalias" ⟨"myalias", urlB, none, some false⟩
    (by rfl) (by rfl) (by rfl) (by decide) (by rfl) (by rfl)

/-- C9 counterexample: the short code is regenerated deterministically from
the URL's hash, so after `delete` a re-`shorten` of the same URL yields the
SAME code as the deleted record, not a new one: shortening `urlW` gives code
`cW1`, and after deleting it the next `shorten` of `urlW` returns `cW1`
again. -/
theorem delete_then_reshorten_same_code_counterexample :
    (deleteUrl stW1 cW1).1 = true ∧
    (shorten (fun _ => true) envW2 (deleteUrl stW1 cW1).2 urlW none).map
        (fun p => p.1.shortCode) = .ok cW1 :=
  ⟨by rfl, by rfl⟩

/-- C9 (amended): after `delete(code)` returns true, all three indices drop
the code, its id and its URL, `expand(code)` fails `NOT_FOUND`, and a
subsequent `shorten` of the same URL creates a fresh record (fresh id, click
count 0) whose code is regenerated deterministically from the URL's hash —
equal in value to the deleted code whenever that regenerated code is
unassigned. -/
theorem delete_then_expand_and_reshorten (v : String → Bool) (env : Env)
    (st : Store) (c i u : String) (rec0 : ShortenedUrl)
    (hci : mapGet st.codeToIdMap c = some i)
    (hiu : mapGet st.urlMap i = some rec0)
    (hurl : rec0.originalUrl = u)
    (hvc : validateShortCode c = .ok ())
    (hvu : validateUrl v u = .ok ())
    (hnd1 : (st.urlMap.map Prod.fst).Nodup)
    (hnd2 : (st.codeToIdMap.map Prod.fst).Nodup)
    (hnd3 : (st.originalUrlToCodeMap.map Prod.fst).Nodup)
    (hfree : mapGet (deleteUrl st c).2.codeToIdMap (generateUniqueShortCode u) = none) :
    (deleteUrl st c).1 = true ∧
    mapGet (deleteUrl st c).2.codeToIdMap c = none ∧
    mapGet (deleteUrl st c).2.urlMap i = none ∧
    mapGet (deleteUrl st c).2.originalUrlToCodeMap u = none ∧
    expand (deleteUrl st c).2 c = .error .notFound ∧
    (shorten v env (deleteUrl st c).2 u none).map
        (fun p => (p.1.shortCode, getStats p.2 p.1.shortCode)) =
      .ok (generateUniqueShortCode u,
        some ⟨env.newId, u, generateUniqueShortCode u, env.nowDate, 0⟩) := by
  have hdel : deleteUrl st c = (true,
      ⟨mapDelete st.urlMap i, mapDelete st.codeToIdMap c,
        mapDelete st.originalUrlToCodeMap rec0.originalUrl⟩) := by
    unfold deleteUrl
    rw [hci]
    dsimp only
    rw [hiu]
  have hdel2 : (deleteUrl st c).2 = ⟨mapDelete st.urlMap i, mapDelete st.codeToIdMap c,
      mapDelete st.originalUrlToCodeMap rec0.originalUrl⟩ := by rw [hdel]
  have hdel1 : (deleteUrl st c).1 = true := by rw [hdel]
  rw [hdel2] at hfree ⊢
  rw [hdel1]
  dsimp only at hfree ⊢
  have hgone2 : mapGet (mapDelete st.codeToIdMap c) c = none :=
    mapGet_mapDelete_self hnd2
  have hgone3 : mapGet (mapDelete st.originalUrlToCodeMap rec0.originalUrl) u = none := by
    rw [hurl]
    exact mapGet_mapDelete_self hnd3
  refine ⟨rfl, hgone2, mapGet_mapDelete_self hnd1, hgone3, ?_, ?_⟩
  · unfold expand
    rw [hvc]
    dsimp only
    rw [hgone2]
  · unfold shorten
    rw [hvu]
    dsimp only
    rw [hgone3]
    dsimp only [truthyAlias]
    rw [hfree, if_neg (by simp : ¬ ((none : Option String).isSome = true))]
    unfold Except.map getStats insertRecord
    dsimp only
    rw [mapGet_mapSet_self]
    dsimp only
    rw [mapGet_mapSet_self]

/-- Witness for the amended C9: the concrete post-shorten store `stW1`, its
code `cW1`, and a fresh environment for the re-shorten. -/
theorem delete_then_expand_and_reshorten_witness :
    ((deleteUrl stW1 cW1).1 = true ∧
    mapGet (deleteUrl stW1 cW1).2.codeToIdMap cW1 = none ∧
    mapGet (deleteUrl stW1 cW1).2.urlMap "id1" = none ∧
    mapGet (deleteUrl stW1 cW1).2.originalUrlToCodeMap urlW = none ∧
    expand (deleteUrl stW1 cW1).2 cW1 = .error .notFound ∧
    (shorten (fun _ => true) envW2 (deleteUrl stW1 cW1).2 urlW none).map
        (fun p => (p.1.shortCode, getStats p.2 p.1.shortCode)) =
      .ok (generateUniqueShortCode urlW,
        some ⟨envW2.newId, urlW, generateUniqueShortCode urlW, envW2.nowDate, 0⟩)) :=
  delete_then_expand_and_reshorten (fun _ => true) envW2 stW1 cW1 "id1" urlW
    ⟨"id1", urlW, cW1, 0, 0⟩ (by rfl) (by rfl) (by rfl) (by rfl) (by rfl)
    (by decide) (by decide) (by decide) (by rfl)

end Shortener
